import Mathlib

/-!
Verification development for the ditty training orchestrator
(src/lib/ditty/trainer.py).

The module is a thin orchestration layer: a TrainerState record (epoch,
steps, global_loss) with state_dict/load_state_dict serialization, and a
Trainer running an epoch/batch loop with periodic checkpointing.

Shallow embedding conventions:
- Python numbers are modelled by PyNum (machine-independent: ints as Int,
  floats idealized as Rat).  Python attributes are dynamically typed, so
  the three TrainerState fields are PyNum.
- Each data-loader batch is represented by the loss value that the model's
  forward pass would produce for it (loss.item() as a rational).
- Observable side effects (accelerator.save_state, the standalone dist
  export of _save_dist, accelerator.load_state, logger.warning, and the
  processing of one batch) are recorded in an event trace.
- Fallible code returns Except PyError; uncaught Python exceptions are
  modelled as .error values that propagate.
- os.listdir of the checkpoints directory is modelled by an optional list
  of entry names (none = FileNotFoundError); accelerator.load_state is
  modelled by a function from checkpoint name to the optionally restored
  TrainerState (none = FileNotFoundError).
- Not modelled: the atexit hook registration/unregistration (process-level
  effect outside the loop's observable results), logger.info calls, the
  optimizer/scheduler step calls (no observable state in this module), and
  the accelerator's iteration counter (written, never read here).
-/

/-- Python numeric value: an int or a float (floats idealized as rationals). -/
inductive PyNum where
  | int (n : Int)
  | float (q : Rat)
deriving DecidableEq, Repr

/-- Numeric value of a PyNum, as used by Python's numeric comparisons and
mixed int/float arithmetic. -/
def PyNum.toRat : PyNum → Rat
  | .int n => (n : Rat)
  | .float q => q

/-- Python addition: int + int stays int, any float makes the result float. -/
def PyNum.add : PyNum → PyNum → PyNum
  | .int a, .int b => .int (a + b)
  | a, b => .float (a.toRat + b.toRat)

/-- Python increment by the int literal 1 (`x += 1`). -/
def PyNum.addOne (a : PyNum) : PyNum := a.add (.int 1)

/-- Python exceptions that the embedded code can raise. -/
inductive PyError where
  | indexError
  | valueError
  | typeError
  | zeroDivisionError
  | keyError (key : String)
deriving DecidableEq, Repr

/-- Python true division (`a / b`): always produces a float, raises
ZeroDivisionError when the divisor is numerically zero. -/
def pyDiv (a b : PyNum) : Except PyError PyNum :=
  if b.toRat = 0 then .error .zeroDivisionError
  else .ok (.float (a.toRat / b.toRat))

/-- TrainerState (trainer.py lines 29-45): mutable record of training
progress.  Fields default to the int 0, as in the dataclass. -/
structure TrainerState where
  epoch : PyNum := .int 0
  steps : PyNum := .int 0
  global_loss : PyNum := .int 0
deriving DecidableEq, Repr

/-- TrainerState() as constructed in __post_init__ (line 97). -/
def initState : TrainerState :=
  { epoch := .int 0, steps := .int 0, global_loss := .int 0 }

/-- TrainerState.state_dict (lines 35-40): a plain mapping of the three
fields, modelled as an association list. -/
def TrainerState.state_dict (s : TrainerState) : List (String × PyNum) :=
  [("epoch", s.epoch), ("steps", s.steps), ("global_loss", s.global_loss)]

/-- TrainerState.load_state_dict (lines 42-45): overwrites the three fields
from the mapping; a missing key is Python's KeyError.  Keys are read in
source order (epoch, then steps, then global_loss), so the first absent
key is the one reported. -/
def TrainerState.load_state_dict (_s : TrainerState) (d : List (String × PyNum)) :
    Except PyError TrainerState :=
  match d.lookup "epoch" with
  | none => .error (.keyError "epoch")
  | some e =>
    match d.lookup "steps" with
    | none => .error (.keyError "steps")
    | some st =>
      match d.lookup "global_loss" with
      | none => .error (.keyError "global_loss")
      | some gl => .ok { epoch := e, steps := st, global_loss := gl }

/-- Observable events of a training run. -/
inductive Event where
  | saveState
  | saveDist
  | loadState (name : String)
  | warn
  | processBatch (ep : Int) (idx : Nat)
deriving DecidableEq, Repr

/-- Trace of _save_dist (lines 100-103): the standalone unwrapped-model
parameter export to the dist subdirectory. -/
def saveDistTrace : List Event := [Event.saveDist]

/-- Trace of _save (lines 105-109): wait_for_everyone (no observable event),
accelerator.save_state, then the dist export unless no_dist is set. -/
def saveTrace (noDist : Bool) : List Event :=
  Event.saveState :: (if noDist then [] else saveDistTrace)

/-- Trace of _save() with its default no_dist=False: a full checkpoint. -/
def saveFullTrace : List Event := saveTrace false

/-- Configuration of a Trainer relevant to _train_accelerate, mirroring the
dataclass fields (lines 48-62) plus the two filesystem collaborators. -/
structure Config where
  loader : List Rat
  gradAccum : Nat := 1
  checkpointEvery : Nat := 1000
  loadCheckpoint : Bool := false
  listing : Option (List String) := none
  restore : String → Option TrainerState := fun _ => none

/-- Python truthiness of an Optional[int]: None and 0 are falsy. -/
def pyTruthy : Option Int → Bool
  | none => false
  | some n => n != 0

/-- Whether __post_init__ calls set_seed, from lines 64-66:
`if self.seed: set_seed(self.seed)`. -/
def postInitSeeds (seed : Option Int) : Bool := pyTruthy seed

/-- Insertion of a string into a sorted list (ascending). -/
def insertSorted (x : String) : List String → List String
  | [] => [x]
  | y :: ys => if x ≤ y then x :: y :: ys else y :: insertSorted x ys

/-- Python's sorted() on a list of strings (ascending lexicographic). -/
def sortedStrings : List String → List String
  | [] => []
  | x :: xs => insertSorted x (sortedStrings xs)

/-- Startup phase of _train_accelerate (lines 114-129): the resume attempt
(or the unconditional no-dist save when load_checkpoint is disabled).
In the load_checkpoint branch, sorted(os.listdir(...))[-1] raises
IndexError on an empty listing; only FileNotFoundError (from listdir or
load_state) is caught, producing two logger.warning calls and
_save(no_dist=True).  After a successful load, int(last_cp.split("_")[-1])
raises an uncaught ValueError when the suffix is not an integer. -/
def startup (cfg : Config) (s : TrainerState) :
    Except PyError (List Event × TrainerState) :=
  if cfg.loadCheckpoint then
    match cfg.listing with
    | none => .ok (Event.warn :: Event.warn :: saveTrace true, s)
    | some names =>
      match (sortedStrings names).getLast? with
      | none => .error .indexError
      | some lastCp =>
        match cfg.restore lastCp with
        | none => .ok (Event.warn :: Event.warn :: saveTrace true, s)
        | some s' =>
          match ((lastCp.splitOn "_").getLastD "").toInt? with
          | none => .error .valueError
          | some _ => .ok ([Event.loadState lastCp], s')
  else .ok (saveTrace true, s)

/-- State update of one batch body (lines 139-156): global_loss +=
loss.item() / grad_accum (a float), then steps += 1. -/
def stepState (g : Nat) (loss : Rat) (s : TrainerState) : TrainerState :=
  { epoch := s.epoch,
    steps := s.steps.addOne,
    global_loss := s.global_loss.add (.float (loss / (g : Rat))) }

/-- Break condition of line 157: max_steps is not None and
batch_idx >= max_steps. -/
def breakNow (maxSteps : Option Int) (idx : Nat) : Bool :=
  match maxSteps with
  | none => false
  | some m => decide (m ≤ (idx : Int))

/-- Batch loop of _train_accelerate (lines 138-161) over the remaining
batches, with idx the enumerate index of the first of them.  Per batch:
the forward/backward/step body (loss.item() / grad_accum raises
ZeroDivisionError when grad_accum is 0), loss accounting and the step
increment, then the break check of line 157, then the cadence check
batch_idx % checkpoint_every == 0 of line 160 (Python % by zero raises
ZeroDivisionError), which triggers a full _save(). -/
def batchLoop (g N : Nat) (maxSteps : Option Int) (ep : Int) :
    List Rat → Nat → TrainerState → Except PyError (List Event × TrainerState)
  | [], _, s => .ok ([], s)
  | loss :: rest, idx, s =>
    if g = 0 then .error .zeroDivisionError
    else if breakNow maxSteps idx then
      .ok ([Event.processBatch ep idx], stepState g loss s)
    else if N = 0 then .error .zeroDivisionError
    else
      match batchLoop g N maxSteps ep rest (idx + 1) (stepState g loss s) with
      | .error e => .error e
      | .ok (tr, s') =>
        .ok (Event.processBatch ep idx ::
              ((if idx % N = 0 then saveFullTrace else []) ++ tr), s')

/-- skip_first_batches (line 136): drops the first state.steps batches.
The accelerator helper needs an integer count (a float is a TypeError,
a negative count a ValueError); both are unreachable in this module. -/
def dropPy (l : List Rat) (n : PyNum) : Except PyError (List Rat) :=
  match n with
  | .float _ => .error .typeError
  | .int k => if k < 0 then .error .valueError else .ok (l.drop k.toNat)

/-- One epoch iteration (lines 132-161): start from the full data loader,
apply the accelerator skip when state.steps > 0, then run the batch loop
from enumerate index 0. -/
def runEpoch (loader : List Rat) (g N : Nat) (maxSteps : Option Int) (ep : Int)
    (s : TrainerState) : Except PyError (List Event × TrainerState) :=
  if 0 < s.steps.toRat then
    match dropPy loader s.steps with
    | .error e => .error e
    | .ok data => batchLoop g N maxSteps ep data 0 s
  else
    batchLoop g N maxSteps ep loader 0 s

/-- Epoch loop (lines 132-163) over the fixed list of epoch numbers that
range(state.epoch, epochs) produced at entry; state.epoch += 1 after each
epoch's batch loop. -/
def epochsLoop (loader : List Rat) (g N : Nat) (maxSteps : Option Int) :
    List Int → TrainerState → Except PyError (List Event × TrainerState)
  | [], s => .ok ([], s)
  | ep :: rest, s =>
    match runEpoch loader g N maxSteps ep s with
    | .error e => .error e
    | .ok (tr, s') =>
      match epochsLoop loader g N maxSteps rest
          { epoch := s'.epoch.addOne, steps := s'.steps,
            global_loss := s'.global_loss } with
      | .error e => .error e
      | .ok (tr', s'') => .ok (tr ++ tr', s'')

/-- Python's range(a, b) over ints. -/
def intRange (a b : Int) : List Int :=
  (List.range (b - a).toNat).map fun i => a + (i : Int)

/-- Body of _train_accelerate after startup (lines 132-167): the epoch loop
from state.epoch (a float epoch would make range raise TypeError; in this
module epoch only ever holds ints), the final full _save(), and the
returned mean global_loss / steps, whose division raises
ZeroDivisionError when steps is numerically zero. -/
def trainBody (loader : List Rat) (g N : Nat) (epochs : Int)
    (maxSteps : Option Int) (s : TrainerState) :
    Except PyError (List Event × TrainerState × PyNum) :=
  match s.epoch with
  | .float _ => .error .typeError
  | .int e0 =>
    match epochsLoop loader g N maxSteps (intRange e0 epochs) s with
    | .error e => .error e
    | .ok (tr, s') =>
      match pyDiv s'.global_loss s'.steps with
      | .error e => .error e
      | .ok v => .ok (tr ++ saveFullTrace, s', v)

/-- Trainer._train_accelerate (lines 111-167): model.train() (no observable
state here), the startup resume-or-save phase, then the main loop, final
save and returned mean loss. -/
def trainAccelerate (cfg : Config) (s : TrainerState) (epochs : Int)
    (maxSteps : Option Int) : Except PyError (List Event × TrainerState × PyNum) :=
  match startup cfg s with
  | .error e => .error e
  | .ok (tr, s') =>
    match trainBody cfg.loader cfg.gradAccum cfg.checkpointEvery epochs maxSteps s' with
    | .error e => .error e
    | .ok (tr', s'', v) => .ok (tr ++ tr', s'', v)

/-- Trainer.train (lines 169-179): logs run parameters (no observable state
here) and delegates to _train_accelerate. -/
def train (cfg : Config) (s : TrainerState) (epochs : Int)
    (maxSteps : Option Int) : Except PyError (List Event × TrainerState × PyNum) :=
  trainAccelerate cfg s epochs maxSteps

/-- Events contributed by batch index i in an epoch with no break: the
batch processing, followed by a full checkpoint exactly when
i % checkpoint_every == 0. -/
def batchChunk (ep : Int) (N : Nat) (i : Nat) : List Event :=
  Event.processBatch ep i :: (if i % N = 0 then saveFullTrace else [])

/-- Trace of a full epoch of B batches with no break. -/
def cadenceTrace (ep : Int) (N B : Nat) : List Event :=
  (List.range B).flatMap fun i => batchChunk ep N i

/-- Trace of batches idx, idx+1, ..., idx+r of an epoch in which the break
of line 157 fires on the last of them (so that last batch is processed but,
the break preceding the cadence check, contributes no checkpoint). -/
def msTraceAux (ep : Int) (N : Nat) : Nat → Nat → List Event
  | 0, idx => [Event.processBatch ep idx]
  | r + 1, idx =>
    Event.processBatch ep idx ::
      ((if idx % N = 0 then saveFullTrace else []) ++ msTraceAux ep N r (idx + 1))

/-- C1 counterexample: with load_checkpoint disabled the startup save of
line 129 is _save(no_dist=True), i.e. a full accelerator save_state with
no dist export at all — the trace is [saveState], which contains no
saveDist event, refuting the claim that it is a distribution-only export. -/
theorem startup_no_resume_counterexample :
    startup { loader := [] } initState = .ok ([Event.saveState], initState) ∧
    Event.saveState ∈ ([Event.saveState] : List Event) ∧
    Event.saveDist ∉ ([Event.saveState] : List Event) := by
  refine ⟨rfl, by simp, by simp⟩

/-- C1 (amended): when load_checkpoint is disabled, the startup save before
the epoch loop is a full resumable accelerator checkpoint (save_state)
with the standalone dist export skipped — not a distribution-only export. -/
theorem startup_no_resume_is_full_checkpoint (cfg : Config) (s : TrainerState)
    (h : cfg.loadCheckpoint = false) :
    startup cfg s = .ok ([Event.saveState], s) ∧
    Event.saveDist ∉ ([Event.saveState] : List Event) := by
  constructor
  · unfold startup
    rw [h]
    rfl
  · simp

/-- Witness for the amended C1 at a concrete configuration. -/
theorem startup_no_resume_is_full_checkpoint_witness :
    startup { loader := [(1 : Rat)] } initState = .ok ([Event.saveState], initState) ∧
    Event.saveDist ∉ ([Event.saveState] : List Event) :=
  startup_no_resume_is_full_checkpoint { loader := [(1 : Rat)] } initState rfl

/-- C3: with load_checkpoint enabled and the checkpoints directory missing
(os.listdir raises FileNotFoundError), the failure is caught: two warnings
are logged, the fallback save _save(no_dist=True) runs, no exception
escapes the startup phase, and the state (epoch 0, step 0 on a fresh run)
is left untouched, so the loop proceeds from it. -/
theorem resume_missing_dir_fallback (cfg : Config) (s : TrainerState)
    (h1 : cfg.loadCheckpoint = true) (h2 : cfg.listing = none) :
    startup cfg s = .ok ([Event.warn, Event.warn, Event.saveState], s) := by
  unfold startup
  rw [h1, h2]
  rfl

/-- Witness for C3 at a concrete configuration. -/
theorem resume_missing_dir_fallback_witness :
    startup { loader := [], loadCheckpoint := true } initState =
      .ok ([Event.warn, Event.warn, Event.saveState], initState) :=
  resume_missing_dir_fallback { loader := [], loadCheckpoint := true } initState rfl rfl

/-- C9: with load_checkpoint enabled and an existing but empty checkpoints
directory, sorted(os.listdir(...))[-1] raises IndexError, which the
except clause (FileNotFoundError only) does not catch, so the whole
training run fails with IndexError. -/
theorem resume_empty_dir_index_error (cfg : Config) (s : TrainerState)
    (epochs : Int) (maxSteps : Option Int)
    (h1 : cfg.loadCheckpoint = true) (h2 : cfg.listing = some []) :
    trainAccelerate cfg s epochs maxSteps = .error .indexError := by
  have hs : startup cfg s = .error .indexError := by
    unfold startup
    rw [h1, h2]
    rfl
  unfold trainAccelerate
  rw [hs]

/-- Witness for C9 at a concrete configuration. -/
theorem resume_empty_dir_index_error_witness :
    trainAccelerate { loader := [], loadCheckpoint := true, listing := some [] }
      initState 1 none = .error .indexError :=
  resume_empty_dir_index_error
    { loader := [], loadCheckpoint := true, listing := some [] } initState 1 none rfl rfl

/-- C7: load_state_dict applied to state_dict output restores exactly the
three fields (identity round trip, for any receiver state), and
load_state_dict applied to a mapping missing any of the three keys fails
with a KeyError. -/
theorem state_dict_round_trip_and_missing_key :
    (∀ s t : TrainerState, t.load_state_dict s.state_dict = .ok s) ∧
    (∀ (t : TrainerState) (d : List (String × PyNum)),
      d.lookup "epoch" = none ∨ d.lookup "steps" = none ∨
        d.lookup "global_loss" = none →
      ∃ k, t.load_state_dict d = .error (.keyError k)) := by
  constructor
  · intro s t
    rfl
  · intro t d h
    cases h1 : d.lookup "epoch" with
    | none => exact ⟨"epoch", by unfold TrainerState.load_state_dict; rw [h1]⟩
    | some e =>
      cases h2 : d.lookup "steps" with
      | none => exact ⟨"steps", by unfold TrainerState.load_state_dict; rw [h1, h2]⟩
      | some st =>
        cases h3 : d.lookup "global_loss" with
        | none =>
          exact ⟨"global_loss", by unfold TrainerState.load_state_dict; rw [h1, h2, h3]⟩
        | some gl =>
          rcases h with h | h | h <;> simp_all

/-- Witness for C7 at concrete states and a concrete deficient mapping. -/
theorem state_dict_round_trip_witness :
    TrainerState.load_state_dict initState
        (TrainerState.state_dict
          { epoch := .int 3, steps := .int 7, global_loss := .float 2 }) =
      .ok { epoch := .int 3, steps := .int 7, global_loss := .float 2 } ∧
    ∃ k, TrainerState.load_state_dict initState [] = .error (.keyError k) :=
  ⟨state_dict_round_trip_and_missing_key.1 _ _,
   state_dict_round_trip_and_missing_key.2 _ [] (Or.inl rfl)⟩

/-- C8 counterexample: a caller-supplied seed of 0 does not seed the global
RNGs, because line 65 tests Python truthiness (if self.seed:) and 0 is
falsy — refuting the claim that every supplied seed value, including 0,
triggers seeding. -/
theorem seed_zero_not_seeded : postInitSeeds (some 0) = false := rfl

/-- C8 (amended): construction seeds the global RNGs exactly when a seed is
given and it is nonzero; both None and 0 skip the set_seed call. -/
theorem seeding_iff_nonzero_seed (seed : Option Int) :
    postInitSeeds seed = true ↔ ∃ n : Int, seed = some n ∧ n ≠ 0 := by
  cases seed with
  | none => simp [postInitSeeds, pyTruthy]
  | some n => simp [postInitSeeds, pyTruthy]

/-- Iterating the Python increment on an int counter. -/
lemma addOne_iterate (m : Int) : ∀ n : Nat, PyNum.addOne^[n] (.int m) = .int (m + n)
  | 0 => by simp
  | n + 1 => by
    rw [Function.iterate_succ_apply]
    have h1 : PyNum.addOne (.int m) = .int (m + 1) := rfl
    rw [h1, addOne_iterate (m + 1) n]
    congr 1
    push_cast
    ring

/-- Accumulating per-batch losses into a float running total. -/
lemma foldl_add_float (g : Nat) : ∀ (l : List Rat) (a : Rat),
    l.foldl (fun (p : PyNum) (x : Rat) => p.add (.float (x / (g : Rat))))
        (PyNum.float a) =
      .float (a + l.sum / (g : Rat))
  | [], a => by simp
  | x :: rest, a => by
    rw [List.foldl_cons]
    have h1 : (PyNum.float a).add (.float (x / (g : Rat))) = .float (a + x / g) := rfl
    rw [h1, foldl_add_float g rest (a + x / g)]
    congr 1
    rw [List.sum_cons, add_div]
    ring

/-- Accumulating per-batch losses starting from the int 0 that global_loss
is initialized to. -/
lemma foldl_add_float_init (g : Nat) (l : List Rat) (h : l ≠ []) :
    l.foldl (fun (p : PyNum) (x : Rat) => p.add (.float (x / (g : Rat))))
        (PyNum.int 0) =
      .float (l.sum / (g : Rat)) := by
  cases l with
  | nil => exact absurd rfl h
  | cons x rest =>
    rw [List.foldl_cons]
    have h1 : (PyNum.int 0).add (.float (x / (g : Rat))) = .float (0 + x / g) := by
      simp [PyNum.add, PyNum.toRat]
    rw [h1, foldl_add_float g rest (0 + x / g)]
    congr 1
    rw [List.sum_cons, add_div]
    ring

lemma processBatch_beq_saveState (ep : Int) (i : Nat) :
    (Event.processBatch ep i == Event.saveState) = false := rfl

lemma count_saveFullTrace : saveFullTrace.count Event.saveState = 1 := rfl

/-- Ceiling-division recurrence used to count checkpoint cadence hits. -/
lemma ceil_div_step (B N : Nat) (hN : 0 < N) :
    (B + N) / N = (B + N - 1) / N + (if B % N = 0 then 1 else 0) := by
  have h1 : B + N - 1 + 1 = B + N := by omega
  have h2 : (N ∣ B + N) ↔ B % N = 0 := by
    rw [Nat.dvd_iff_mod_eq_zero, Nat.add_mod_right]
  conv_lhs => rw [← h1]
  rw [Nat.succ_div]
  simp only [h1, h2]

/-- Splitting a shifted flatMap over an index range at its head. -/
lemma range_flatMap_shift (f : Nat → List Event) (n idx : Nat) :
    (List.range (n + 1)).flatMap (fun j => f (idx + j)) =
      f idx ++ (List.range n).flatMap fun j => f (idx + 1 + j) := by
  rw [List.range_succ_eq_map, List.flatMap_cons, List.flatMap_map]
  have h1 : ∀ j : Nat, f (idx + Nat.succ j) = f (idx + 1 + j) := by
    intro j
    congr 1
    omega
  simp only [Nat.add_zero, h1]

/-- Checkpoint count contributed by a single no-break batch. -/
lemma count_saveState_batchChunk (ep : Int) (N i : Nat) :
    (batchChunk ep N i).count Event.saveState = if i % N = 0 then 1 else 0 := by
  by_cases h : i % N = 0
  · rw [batchChunk, if_pos h, if_pos h, List.count_cons, processBatch_beq_saveState]
    simp [count_saveFullTrace]
  · rw [batchChunk, if_neg h, if_neg h, List.count_cons, processBatch_beq_saveState]
    simp

/-- Checkpoint count of one full epoch of B batches: ceil(B / N). -/
lemma count_saveState_cadenceTrace (ep : Int) (N : Nat) (hN : 0 < N) :
    ∀ B, (cadenceTrace ep N B).count Event.saveState = (B + N - 1) / N
  | 0 => by
    simp only [cadenceTrace, List.range_zero, List.flatMap_nil, List.count_nil]
    exact (Nat.div_eq_of_lt (by omega)).symm
  | B + 1 => by
    have hrec := count_saveState_cadenceTrace ep N hN B
    have h3 : B + 1 + N - 1 = B + N := by omega
    simp only [cadenceTrace] at hrec ⊢
    rw [List.range_succ, List.flatMap_append, List.count_append, hrec, h3,
      ceil_div_step B N hN]
    simp only [List.flatMap_cons, List.flatMap_nil, List.append_nil]
    rw [count_saveState_batchChunk]

/-- Closed form of the batch loop with no max_steps bound: every batch is
processed in order, with a full checkpoint after each batch whose
enumerate index is a multiple of checkpoint_every. -/
lemma batchLoop_noBreak (g N : Nat) (ep : Int) (hg : g ≠ 0) (hN : N ≠ 0) :
    ∀ (l : List Rat) (idx : Nat) (s : TrainerState),
      batchLoop g N none ep l idx s =
        .ok ((List.range l.length).flatMap (fun j => batchChunk ep N (idx + j)),
             { epoch := s.epoch, steps := PyNum.addOne^[l.length] s.steps,
               global_loss :=
                 l.foldl (fun a x => a.add (.float (x / (g : Rat)))) s.global_loss })
  | [], idx, s => rfl
  | loss :: rest, idx, s => by
    rw [batchLoop, if_neg hg]
    have hb : breakNow none idx = false := rfl
    rw [hb, if_neg Bool.false_ne_true, if_neg hN]
    rw [batchLoop_noBreak g N ep hg hN rest (idx + 1) (stepState g loss s)]
    rw [List.length_cons, range_flatMap_shift (batchChunk ep N) rest.length idx]
    rfl

/-- Closed form of the batch loop when max_steps = K is hit inside the
list: batches idx..K are processed (the last one breaking before the
cadence check), the step counter is incremented once per processed batch,
and global_loss accumulates exactly the processed losses. -/
lemma batchLoop_break (g N : Nat) (ep : Int) (K : Nat) (hg : g ≠ 0) (hN : N ≠ 0) :
    ∀ (l : List Rat) (idx : Nat) (s : TrainerState), idx ≤ K → K < idx + l.length →
      batchLoop g N (some (K : Int)) ep l idx s =
        .ok (msTraceAux ep N (K - idx) idx,
             { epoch := s.epoch, steps := PyNum.addOne^[K - idx + 1] s.steps,
               global_loss := (l.take (K - idx + 1)).foldl
                 (fun (a : PyNum) (x : Rat) => a.add (.float (x / (g : Rat))))
                 s.global_loss })
  | [], _idx, _s, h1, h2 => by
    simp only [List.length_nil, Nat.add_zero] at h2
    exact absurd h2 (by omega)
  | loss :: rest, idx, s, h1, h2 => by
    simp only [List.length_cons] at h2
    rw [batchLoop, if_neg hg]
    by_cases hik : idx < K
    · have hb : breakNow (some (K : Int)) idx = false := by
        simp only [breakNow, decide_eq_false_iff_not]
        omega
      rw [hb, if_neg Bool.false_ne_true, if_neg hN]
      rw [batchLoop_break g N ep K hg hN rest (idx + 1) (stepState g loss s)
        (by omega) (by omega)]
      have hKi : K - idx = (K - (idx + 1)) + 1 := by omega
      rw [hKi]
      rfl
    · have hik' : idx = K := by omega
      subst hik'
      have hb : breakNow (some (idx : Int)) idx = true := by
        simp [breakNow]
      rw [hb, if_pos rfl]
      rw [show idx - idx = 0 from Nat.sub_self idx]
      rfl

/-- Batch events occurring in an msTraceAux trace are exactly those of the
indices idx..idx+r. -/
lemma msTraceAux_mem (ep : Int) (N : Nat) :
    ∀ (r idx i : Nat),
      Event.processBatch ep i ∈ msTraceAux ep N r idx ↔ idx ≤ i ∧ i ≤ idx + r
  | 0, idx, i => by
    simp only [msTraceAux, List.mem_singleton, Event.processBatch.injEq, true_and]
    omega
  | r + 1, idx, i => by
    have ih := msTraceAux_mem ep N r (idx + 1) i
    by_cases h : idx % N = 0 <;>
      simp only [msTraceAux, h, if_pos, if_neg, saveFullTrace, saveTrace,
        saveDistTrace, List.mem_cons, List.mem_append, ite_true, ite_false,
        List.mem_singleton, List.not_mem_nil, false_or, or_false,
        Event.processBatch.injEq, true_and, reduceCtorEq, ih] <;>
      omega

/-- An msTraceAux trace ends with the processing of batch idx+r and nothing
after it (in particular no checkpoint for that final batch). -/
lemma msTraceAux_concat (ep : Int) (N : Nat) :
    ∀ (r idx : Nat), ∃ pre : List Event,
      msTraceAux ep N r idx = pre ++ [Event.processBatch ep (idx + r)]
  | 0, idx => ⟨[], by simp [msTraceAux]⟩
  | r + 1, idx => by
    obtain ⟨pre, hpre⟩ := msTraceAux_concat ep N r (idx + 1)
    rw [show idx + 1 + r = idx + (r + 1) from by omega] at hpre
    refine ⟨Event.processBatch ep idx ::
      ((if idx % N = 0 then saveFullTrace else []) ++ pre), ?_⟩
    simp only [msTraceAux, hpre, List.cons_append, List.append_assoc]

/-- C2: in one epoch of B batches with checkpoint_every = N, no resume and
no max_steps, the batch loop performs a full checkpoint exactly after each
batch whose index is a multiple of N (the if-condition of batchChunk), for
a total of ceil(B / N) = (B + N - 1) / N full checkpoints, in addition to
the single pre-loop save of startup. -/
theorem checkpoint_cadence (losses : List Rat) (g N : Nat) (hg : 0 < g)
    (hN : 0 < N) :
    (∃ s', runEpoch losses g N none 0 initState =
        .ok (cadenceTrace 0 N losses.length, s')) ∧
    (cadenceTrace 0 N losses.length).count Event.saveState =
      (losses.length + N - 1) / N ∧
    startup { loader := losses, gradAccum := g, checkpointEvery := N } initState =
      .ok ([Event.saveState], initState) := by
  have hrun : runEpoch losses g N none 0 initState =
      .ok (cadenceTrace 0 N losses.length,
        { epoch := .int 0, steps := PyNum.addOne^[losses.length] (.int 0),
          global_loss := losses.foldl
            (fun (a : PyNum) (x : Rat) => a.add (.float (x / (g : Rat))))
            (.int 0) }) := by
    rw [runEpoch, if_neg (by norm_num [initState, PyNum.toRat])]
    rw [batchLoop_noBreak g N 0 (by omega) (by omega) losses 0 initState]
    have hf : (fun j => batchChunk 0 N (0 + j)) = fun j : Nat => batchChunk 0 N j := by
      funext j
      rw [Nat.zero_add]
    simp only [hf, cadenceTrace, initState]
  exact ⟨⟨_, hrun⟩, count_saveState_cadenceTrace 0 N hN losses.length, rfl⟩

/-- Witness for C2 at a concrete epoch. -/
theorem checkpoint_cadence_witness :
    (∃ s', runEpoch [(1 : Rat)] 1 1 none 0 initState =
        .ok (cadenceTrace 0 1 [(1 : Rat)].length, s')) ∧
    (cadenceTrace 0 1 [(1 : Rat)].length).count Event.saveState =
      ([(1 : Rat)].length + 1 - 1) / 1 ∧
    startup { loader := [(1 : Rat)], gradAccum := 1, checkpointEvery := 1 } initState =
      .ok ([Event.saveState], initState) :=
  checkpoint_cadence [(1 : Rat)] 1 1 Nat.one_pos Nat.one_pos

/-- C6: with max_steps = K < B - 1, the batch loop of an epoch of B batches
processes exactly the batches of index 0..K — batch K in full, including
its loss accounting and step increment — and no batch of larger index;
the break only leaves the batch loop of that epoch. -/
theorem max_steps_break_after_K (losses : List Rat) (g N K : Nat) (ep : Int)
    (hg : 0 < g) (hN : 0 < N) (hK : K < losses.length - 1) :
    runEpoch losses g N (some (K : Int)) ep initState =
      .ok (msTraceAux ep N K 0,
        { epoch := .int 0, steps := .int (K + 1),
          global_loss := .float ((losses.take (K + 1)).sum / (g : Rat)) }) ∧
    ∀ i : Nat, Event.processBatch ep i ∈ msTraceAux ep N K 0 ↔ i ≤ K := by
  constructor
  · have hlne : losses ≠ [] := List.length_pos.mp (by omega)
    have hne : losses.take (K + 1) ≠ [] := by
      rw [Ne, List.take_eq_nil_iff]
      push_neg
      exact ⟨by omega, hlne⟩
    rw [runEpoch, if_neg (by norm_num [initState, PyNum.toRat])]
    rw [batchLoop_break g N ep K (by omega) (by omega) losses 0 initState
      (by omega) (by omega)]
    simp only [initState, Nat.sub_zero]
    rw [addOne_iterate 0 (K + 1), foldl_add_float_init g (losses.take (K + 1)) hne]
    norm_num
  · intro i
    rw [msTraceAux_mem ep N K 0 i]
    omega

/-- Witness for C6 at a concrete epoch. -/
theorem max_steps_break_after_K_witness :
    runEpoch [(1 : Rat), 2, 3] 1 1 (some ((0 : Nat) : Int)) 7 initState =
      .ok (msTraceAux 7 1 0 0,
        { epoch := .int 0, steps := .int (0 + 1),
          global_loss := .float (([(1 : Rat), 2, 3].take (0 + 1)).sum / ((1 : Nat) : Rat)) }) ∧
    (∀ i : Nat, Event.processBatch 7 i ∈ msTraceAux 7 1 0 0 ↔ i ≤ 0) :=
  max_steps_break_after_K [(1 : Rat), 2, 3] 1 1 0 7 Nat.one_pos Nat.one_pos (by norm_num)

/-- C10: when the break fires on batch K (max_steps = K) and K lies on the
checkpoint cadence (K % N = 0), the epoch trace still ends with the
processing of batch K — the break precedes the cadence check, so no full
checkpoint follows that final batch — while the step counter was still
incremented for it. -/
theorem break_skips_cadence_checkpoint (losses : List Rat) (g N K : Nat) (ep : Int)
    (hg : 0 < g) (hN : 0 < N) (hK : K < losses.length) (hKN : K % N = 0) :
    ∃ s' pre, runEpoch losses g N (some (K : Int)) ep initState =
        .ok (msTraceAux ep N K 0, s') ∧
      msTraceAux ep N K 0 = pre ++ [Event.processBatch ep K] ∧
      s'.steps = .int (K + 1) := by
  obtain ⟨pre, hpre⟩ := msTraceAux_concat ep N K 0
  rw [Nat.zero_add] at hpre
  have hrun : runEpoch losses g N (some (K : Int)) ep initState =
      .ok (msTraceAux ep N K 0,
        { epoch := initState.epoch,
          steps := PyNum.addOne^[K - 0 + 1] initState.steps,
          global_loss := (losses.take (K - 0 + 1)).foldl
            (fun (a : PyNum) (x : Rat) => a.add (.float (x / (g : Rat))))
            initState.global_loss }) := by
    rw [runEpoch, if_neg (by norm_num [initState, PyNum.toRat])]
    rw [batchLoop_break g N ep K (by omega) (by omega) losses 0 initState
      (by omega) (by omega)]
    simp only [Nat.sub_zero]
  refine ⟨_, pre, hrun, hpre, ?_⟩
  simp only [initState, Nat.sub_zero]
  rw [addOne_iterate 0 (K + 1)]
  norm_num

/-- Witness for C10 at a concrete epoch. -/
theorem break_skips_cadence_checkpoint_witness :
    ∃ s' pre, runEpoch [(1 : Rat), 2] 1 1 (some ((1 : Nat) : Int)) 5 initState =
        .ok (msTraceAux 5 1 1 0, s') ∧
      msTraceAux 5 1 1 0 = pre ++ [Event.processBatch 5 1] ∧
      s'.steps = .int (1 + 1) :=
  break_skips_cadence_checkpoint [(1 : Rat), 2] 1 1 1 5 Nat.one_pos Nat.one_pos
    (by norm_num) (by norm_num)

/-- A fresh epoch (state.steps = 0, so no skip) with no max_steps processes
the whole loader with the checkpoint cadence trace. -/
lemma runEpoch_fresh_noBreak (losses : List Rat) (g N : Nat) (ep : Int)
    (hg : g ≠ 0) (hN : N ≠ 0) :
    runEpoch losses g N none ep initState =
      .ok (cadenceTrace ep N losses.length,
        { epoch := .int 0, steps := PyNum.addOne^[losses.length] (.int 0),
          global_loss := losses.foldl
            (fun (a : PyNum) (x : Rat) => a.add (.float (x / (g : Rat))))
            (.int 0) }) := by
  rw [runEpoch, if_neg (by norm_num [initState, PyNum.toRat])]
  rw [batchLoop_noBreak g N ep hg hN losses 0 initState]
  have hf : (fun j => batchChunk ep N (0 + j)) = fun j : Nat => batchChunk ep N j := by
    funext j
    rw [Nat.zero_add]
  simp only [hf, cadenceTrace, initState]

/-- Composition rule: a run is its startup followed by its body. -/
lemma trainAccelerate_ok {cfg : Config} {s : TrainerState} {epochs : Int}
    {maxSteps : Option Int} {tr : List Event} {s' : TrainerState}
    {tr' : List Event} {s'' : TrainerState} {v : PyNum}
    (h1 : startup cfg s = .ok (tr, s'))
    (h2 : trainBody cfg.loader cfg.gradAccum cfg.checkpointEvery epochs maxSteps s' =
      .ok (tr', s'', v)) :
    trainAccelerate cfg s epochs maxSteps = .ok (tr ++ tr', s'', v) := by
  unfold trainAccelerate
  simp only [h1, h2]

/-- Composition rule: the loop body is the epoch loop, the final save and
the mean-loss division. -/
lemma trainBody_ok {loader : List Rat} {g N : Nat} {epochs : Int}
    {maxSteps : Option Int} {s : TrainerState} {e0 : Int} {tr : List Event}
    {s' : TrainerState} {v : PyNum}
    (h0 : s.epoch = .int e0)
    (h1 : epochsLoop loader g N maxSteps (intRange e0 epochs) s = .ok (tr, s'))
    (h2 : pyDiv s'.global_loss s'.steps = .ok v) :
    trainBody loader g N epochs maxSteps s = .ok (tr ++ saveFullTrace, s', v) := by
  unfold trainBody
  simp only [h0, h1, h2]

/-- Composition rule: one epoch iteration followed by the rest of the
epoch loop, with the epoch counter incremented in between. -/
lemma epochsLoop_cons_ok {loader : List Rat} {g N : Nat} {maxSteps : Option Int}
    {ep : Int} {rest : List Int} {s : TrainerState} {tr tr' : List Event}
    {s' s'' : TrainerState}
    (h1 : runEpoch loader g N maxSteps ep s = .ok (tr, s'))
    (h2 : epochsLoop loader g N maxSteps rest
        { epoch := s'.epoch.addOne, steps := s'.steps,
          global_loss := s'.global_loss } = .ok (tr', s'')) :
    epochsLoop loader g N maxSteps (ep :: rest) s = .ok (tr ++ tr', s'') := by
  unfold epochsLoop
  simp only [h1, h2]

/-- Full value of a fresh one-epoch run over a nonempty loader. -/
lemma train_single_epoch (losses : List Rat) (g N : Nat) (hg : g ≠ 0) (hN : N ≠ 0)
    (hB : losses ≠ []) :
    train { loader := losses, gradAccum := g, checkpointEvery := N } initState 1 none =
      .ok (Event.saveState :: (cadenceTrace 0 N losses.length ++ saveFullTrace),
        { epoch := .int 1, steps := .int (losses.length : Int),
          global_loss := .float (losses.sum / (g : Rat)) },
        .float (losses.sum / (g : Rat) / (losses.length : Rat))) := by
  have hrun : runEpoch losses g N none 0 initState =
      .ok (cadenceTrace 0 N losses.length,
        { epoch := .int 0, steps := .int (losses.length : Int),
          global_loss := .float (losses.sum / (g : Rat)) }) := by
    rw [runEpoch_fresh_noBreak losses g N 0 hg hN,
      foldl_add_float_init g losses hB, addOne_iterate 0 losses.length]
    norm_num
  have hcond : ¬ PyNum.toRat (.int (losses.length : Int)) = 0 := by
    simp only [PyNum.toRat, Int.cast_natCast, Nat.cast_eq_zero, List.length_eq_zero]
    exact hB
  have hdiv : pyDiv (.float (losses.sum / (g : Rat))) (.int (losses.length : Int)) =
      .ok (.float (losses.sum / (g : Rat) / (losses.length : Rat))) := by
    rw [pyDiv, if_neg hcond]
    simp [PyNum.toRat]
  have hep : epochsLoop losses g N none [(0 : Int)] initState =
      .ok (cadenceTrace 0 N losses.length ++ [],
        { epoch := .int 1, steps := .int (losses.length : Int),
          global_loss := .float (losses.sum / (g : Rat)) }) :=
    epochsLoop_cons_ok hrun rfl
  have hfull : trainAccelerate { loader := losses, gradAccum := g, checkpointEvery := N }
      initState 1 none =
      .ok ([Event.saveState] ++ ((cadenceTrace 0 N losses.length ++ []) ++ saveFullTrace),
        { epoch := .int 1, steps := .int (losses.length : Int),
          global_loss := .float (losses.sum / (g : Rat)) },
        .float (losses.sum / (g : Rat) / (losses.length : Rat))) :=
    trainAccelerate_ok rfl (trainBody_ok rfl hep hdiv)
  unfold train
  rw [hfull]
  simp

/-- C4: a fresh one-epoch run returns global_loss / steps — the mean of the
per-batch normalized losses over the steps taken — and raises
ZeroDivisionError if and only if zero steps were taken (empty loader). -/
theorem train_returns_mean_loss (losses : List Rat) (g N : Nat) (hg : 0 < g)
    (hN : 0 < N) :
    (train { loader := losses, gradAccum := g, checkpointEvery := N } initState 1 none =
        .error .zeroDivisionError ↔ losses = []) ∧
    (losses ≠ [] →
      train { loader := losses, gradAccum := g, checkpointEvery := N } initState 1 none =
        .ok (Event.saveState :: (cadenceTrace 0 N losses.length ++ saveFullTrace),
          { epoch := .int 1, steps := .int (losses.length : Int),
            global_loss := .float (losses.sum / (g : Rat)) },
          .float (losses.sum / (g : Rat) / (losses.length : Rat)))) := by
  by_cases hB : losses = []
  · subst hB
    exact ⟨⟨fun _ => rfl, fun _ => rfl⟩, fun h => absurd rfl h⟩
  · refine ⟨⟨fun hcontra => ?_, fun h => absurd h hB⟩,
      fun _ => train_single_epoch losses g N (by omega) (by omega) hB⟩
    rw [train_single_epoch losses g N (by omega) (by omega) hB] at hcontra
    exact absurd hcontra (by simp)

/-- Witness for C4 at a concrete run. -/
theorem train_returns_mean_loss_witness :
    (train { loader := [(2 : Rat)], gradAccum := 1, checkpointEvery := 1 }
        initState 1 none = .error .zeroDivisionError ↔ [(2 : Rat)] = []) ∧
    ([(2 : Rat)] ≠ [] →
      train { loader := [(2 : Rat)], gradAccum := 1, checkpointEvery := 1 }
          initState 1 none =
        .ok (Event.saveState :: (cadenceTrace 0 1 [(2 : Rat)].length ++ saveFullTrace),
          { epoch := .int 1, steps := .int ([(2 : Rat)].length : Int),
            global_loss := .float ([(2 : Rat)].sum / ((1 : Nat) : Rat)) },
          .float ([(2 : Rat)].sum / ((1 : Nat) : Rat) / ([(2 : Rat)].length : Rat)))) :=
  train_returns_mean_loss [(2 : Rat)] 1 1 Nat.one_pos Nat.one_pos

/-- C5 failing run: a fresh two-epoch run over a 3-batch loader (losses 1,
2, 3; grad_accum 1; checkpoint_every 5; no resume).  Because state.steps
is never reset, epoch 1 applies skip_first_batches with steps = 3 and so
processes zero batches: the trace has no processBatch event for epoch 1
and the final step count is 3, not 6 — contradicting the claim that every
epoch other than a mid-epoch resume iterates the full loader. -/
theorem second_epoch_skips_all_batches :
    trainAccelerate { loader := [1, 2, 3], gradAccum := 1, checkpointEvery := 5 }
        initState 2 none =
      .ok ([Event.saveState, Event.processBatch 0 0, Event.saveState, Event.saveDist,
            Event.processBatch 0 1, Event.processBatch 0 2,
            Event.saveState, Event.saveDist],
        { epoch := .int 2, steps := .int 3, global_loss := .float 6 },
        .float 2) ∧
    (∀ i : Nat, Event.processBatch 1 i ∉
      ([Event.saveState, Event.processBatch 0 0, Event.saveState, Event.saveDist,
        Event.processBatch 0 1, Event.processBatch 0 2,
        Event.saveState, Event.saveDist] : List Event)) := by
  have h0 : runEpoch [(1 : Rat), 2, 3] 1 5 none 0 initState =
      .ok ([Event.processBatch 0 0, Event.saveState, Event.saveDist,
            Event.processBatch 0 1, Event.processBatch 0 2],
        { epoch := .int 0, steps := .int 3, global_loss := .float 6 }) := by
    rw [runEpoch_fresh_noBreak [(1 : Rat), 2, 3] 1 5 0 (by norm_num) (by norm_num),
      show ([(1 : Rat), 2, 3].length) = 3 from rfl,
      foldl_add_float_init 1 [(1 : Rat), 2, 3] (by simp),
      addOne_iterate 0 3,
      show cadenceTrace 0 5 3 = [Event.processBatch 0 0, Event.saveState,
        Event.saveDist, Event.processBatch 0 1, Event.processBatch 0 2] from rfl,
      show (0 : Int) + ((3 : Nat) : Int) = 3 from by norm_num,
      show ([(1 : Rat), 2, 3].sum / ((1 : Nat) : Rat)) = 6 from by
        norm_num [List.sum_cons, List.sum_nil]]
  have h1 : runEpoch [(1 : Rat), 2, 3] 1 5 none 1
      { epoch := .int 1, steps := .int 3, global_loss := .float 6 } =
      .ok ([], { epoch := .int 1, steps := .int 3, global_loss := .float 6 }) := by
    have hc : (0 : Rat) < PyNum.toRat (TrainerState.steps
        { epoch := .int 1, steps := .int 3, global_loss := .float 6 }) := by
      norm_num [PyNum.toRat]
    rw [runEpoch, if_pos hc]
    rfl
  have hep : epochsLoop [(1 : Rat), 2, 3] 1 5 none [(0 : Int), 1] initState =
      .ok ([Event.processBatch 0 0, Event.saveState, Event.saveDist,
            Event.processBatch 0 1, Event.processBatch 0 2],
        { epoch := .int 2, steps := .int 3, global_loss := .float 6 }) :=
    epochsLoop_cons_ok h0 (epochsLoop_cons_ok h1 rfl)
  have hdiv : pyDiv (.float 6) (.int 3) = .ok (.float 2) := by
    rw [pyDiv, if_neg (by norm_num [PyNum.toRat])]
    norm_num [PyNum.toRat]
  constructor
  · have hfull : trainAccelerate
        { loader := [(1 : Rat), 2, 3], gradAccum := 1, checkpointEvery := 5 }
        initState 2 none =
        .ok ([Event.saveState] ++
            ([Event.processBatch 0 0, Event.saveState, Event.saveDist,
              Event.processBatch 0 1, Event.processBatch 0 2] ++ saveFullTrace),
          { epoch := .int 2, steps := .int 3, global_loss := .float 6 },
          .float 2) :=
      trainAccelerate_ok rfl (trainBody_ok rfl hep hdiv)
    exact hfull
  · intro i
    simp
